import Mathlib

/-!
Shallow embedding of the pattern-detection core of the repository:
the regex-based `PatternEngine` (engine.py), the `SQLAnalyzer` and
`JSONAnalyzer` detectors (analyzers.py), and the SARIF construction of
`PatternReporter` (reporter.py).

Host-environment effects are made explicit:
* the host regex library is a parameter `reCompile : String → Option HostRegex`
  (compilation may fail; a compiled pattern is a line-search predicate);
* the file system is a value of type `FSFile` (existence, suffix, readability);
* the small fixed regexes used by the analyzers (word-boundary keyword
  searches, the credential-token shape, the URL-shape checks) are executable
  character-list scanners translated from the concrete patterns in the source;
* Python exceptions that can escape the analyzers are modelled with `Except`.

Newlines are modelled as the single character `\n` (the inputs of interest
contain no other line separators).
-/

/-! ### Generic string helpers -/

/-- Accumulating scanner for `splitlines` (`acc` holds the current line in
reverse). -/
def splitlinesGo (acc : List Char) : List Char → List String
  | [] => if acc.isEmpty then [] else [String.mk acc.reverse]
  | c :: t =>
    if c == '\n' then String.mk acc.reverse :: splitlinesGo [] t
    else splitlinesGo (c :: acc) t

/-- Python `str.splitlines` restricted to `\n` separators: no trailing empty
line is produced, and the empty string yields no lines. -/
def splitlines (s : String) : List String :=
  splitlinesGo [] s.toList

/-- `needle` occurs as a contiguous sublist of `hay` (Python `in` on `str`). -/
def hasSubList (needle : List Char) : List Char → Bool
  | [] => needle.isEmpty
  | c :: t => needle.isPrefixOf (c :: t) || hasSubList needle t

/-- Python `needle in hay` for strings. -/
def hasSubStr (needle hay : String) : Bool :=
  hasSubList needle.toList hay.toList

/-- Character-by-character scan for `countSub`: `skip` characters of a
previous match remain to be stepped over before matching may resume. -/
def countSubGo (needle : List Char) : Nat → List Char → Nat
  | _, [] => 0
  | Nat.succ skip, _ :: t => countSubGo needle skip t
  | 0, c :: t =>
    if needle.isPrefixOf (c :: t) && !needle.isEmpty then
      1 + countSubGo needle (needle.length - 1) t
    else countSubGo needle 0 t

/-- Python `hay.count(needle)`: number of non-overlapping occurrences,
scanning left to right (only used with a non-empty needle). -/
def countSub (needle l : List Char) : Nat := countSubGo needle 0 l

/-- ASCII upper-casing, as applied by Python `str.upper` on ASCII input. -/
def strUpper (s : String) : String :=
  String.mk (s.toList.map Char.toUpper)

/-! ### Pattern engine data model (engine.py) -/

/-- A rule record (`Pattern` TypedDict in the source): `id`, `severity`,
`category`, `description` are accessed with `[]`; the remaining fields with
`.get` and are therefore optional. -/
structure Pattern where
  id : String
  severity : String
  category : String
  description : String
  regex : Option String := none
  fix_suggestion : Option String := none
  do_pattern : Option String := none
  dont_pattern : Option String := none
deriving Repr, DecidableEq

/-- `Violation` dataclass from engine.py. -/
structure Violation where
  pattern_id : String
  severity : String
  category : String
  description : String
  file_path : String
  line_number : Nat
  line_content : String
  fix_suggestion : Option String := none
  do_pattern : Option String := none
  dont_pattern : Option String := none
deriving Repr, DecidableEq

/-- `AnalysisResult` dataclass from engine.py. -/
structure AnalysisResult where
  violations : List Violation := []
  files_analyzed : Nat := 0
  patterns_checked : Nat := 0
deriving Repr, DecidableEq

def AnalysisResult.error_count (r : AnalysisResult) : Nat :=
  (r.violations.filter (fun v => v.severity == "error")).length

def AnalysisResult.warning_count (r : AnalysisResult) : Nat :=
  (r.violations.filter (fun v => v.severity == "warning")).length

def AnalysisResult.info_count (r : AnalysisResult) : Nat :=
  (r.violations.filter (fun v => v.severity == "info")).length

def AnalysisResult.by_severity (r : AnalysisResult) (severity : String) : List Violation :=
  r.violations.filter (fun v => v.severity == severity)

def AnalysisResult.by_category (r : AnalysisResult) (category : String) : List Violation :=
  r.violations.filter (fun v => v.category == category)

def AnalysisResult.by_file (r : AnalysisResult) (file_path : String) : List Violation :=
  r.violations.filter (fun v => v.file_path == file_path)

/-- A compiled host regex is its search behaviour on one string
(`compiled.search(line)` viewed as a Boolean). -/
abbrev HostRegex : Type := String → Bool

/-- The engine regex cache `_compiled_patterns`, keyed by pattern text. -/
abbrev RegexCache : Type := List (String × HostRegex)

def cacheLookup (cache : RegexCache) (key : String) : Option HostRegex :=
  (cache.find? (fun e => e.1 == key)).map (fun e => e.2)

/-- `PatternEngine` mutable state: rule registry, info flag, regex cache. -/
structure PatternEngine where
  patterns : List (String × List Pattern)
  include_info : Bool
  compiled_patterns : RegexCache

/-- Python truthiness of `pattern.get("regex")`: absent and empty string are
both falsy. -/
def truthyStrOpt : Option String → Bool
  | none => false
  | some s => !(s == "")

def mkViolation (p : Pattern) (file_path : String) (line_number : Nat)
    (line_content : String) : Violation :=
  { pattern_id := p.id, severity := p.severity, category := p.category,
    description := p.description, file_path := file_path,
    line_number := line_number, line_content := line_content,
    fix_suggestion := p.fix_suggestion, do_pattern := p.do_pattern,
    dont_pattern := p.dont_pattern }

/-- The per-line scan of `_check_regex_pattern`: lines are 1-based, one
violation per line on which the compiled regex search succeeds. -/
def scanLines (compiled : HostRegex) (p : Pattern) (file_path : String) :
    Nat → List String → List Violation
  | _, [] => []
  | n, line :: rest =>
    (if compiled line then [mkViolation p file_path n line] else [])
      ++ scanLines compiled p file_path (n + 1) rest

/-- `PatternEngine._check_regex_pattern`: falsy regex yields nothing; a cache
miss compiles and stores the pattern; a compile failure yields nothing and
leaves the cache unchanged. -/
def check_regex_pattern (reCompile : String → Option HostRegex)
    (cache : RegexCache) (content : String) (p : Pattern) (file_path : String) :
    List Violation × RegexCache :=
  match p.regex with
  | none => ([], cache)
  | some regex_str =>
    if regex_str == "" then ([], cache)
    else
      match cacheLookup cache regex_str with
      | some compiled =>
        (scanLines compiled p file_path 1 (splitlines content), cache)
      | none =>
        match reCompile regex_str with
        | none => ([], cache)
        | some compiled =>
          (scanLines compiled p file_path 1 (splitlines content),
           cache ++ [(regex_str, compiled)])

/-- Flatten the category ➜ rules registry in iteration order. -/
def allRules : List (String × List Pattern) → List Pattern
  | [] => []
  | (_, rs) :: t => rs ++ allRules t

/-- The shared rule-application loop of `analyze_file` / `analyze_string`:
count every rule, skip info rules unless `include_info`, apply truthy
regexes, extend the violation list, thread the cache. -/
def analyze_rules (reCompile : String → Option HostRegex) (include_info : Bool)
    (content file_name : String) :
    List Pattern → AnalysisResult × RegexCache → AnalysisResult × RegexCache
  | [], st => st
  | p :: rest, (res, cache) =>
    let res := { res with patterns_checked := res.patterns_checked + 1 }
    if !include_info && p.severity == "info" then
      analyze_rules reCompile include_info content file_name rest (res, cache)
    else if truthyStrOpt p.regex then
      let vc := check_regex_pattern reCompile cache content p file_name
      analyze_rules reCompile include_info content file_name rest
        ({ res with violations := res.violations ++ vc.1 }, vc.2)
    else
      analyze_rules reCompile include_info content file_name rest (res, cache)

/-- `PatternEngine.analyze_string` (the `file_type` argument is accepted and
unused, as in the source). -/
def analyze_string (reCompile : String → Option HostRegex) (e : PatternEngine)
    (content : String) (file_type : String := "python")
    (file_name : String := "<string>") : AnalysisResult × PatternEngine :=
  let _ := file_type
  let st := analyze_rules reCompile e.include_info content file_name
    (allRules e.patterns)
    ({ violations := [], files_analyzed := 1, patterns_checked := 0 },
     e.compiled_patterns)
  (st.1, { e with compiled_patterns := st.2 })

/-- The fixed recognized-extension set of the engine. -/
def ALL_EXTENSIONS : List String := [".py", ".pyi", ".sql", ".json", ".ipynb"]

/-- A file as the engine observes it: its path string, whether it exists, its
suffix, and the outcome of reading it (`none` models an `OSError` or
`UnicodeDecodeError`). -/
structure FSFile where
  path_str : String
  path_exists : Bool
  suffix : String
  read : Option String

/-- `PatternEngine.analyze_file`: empty result (with `files_analyzed = 1`)
when the path is missing, the lower-cased suffix is unrecognized, or the read
fails; otherwise the same rule loop as `analyze_string` on the file content. -/
def analyze_file (reCompile : String → Option HostRegex) (e : PatternEngine)
    (f : FSFile) : AnalysisResult × PatternEngine :=
  let result : AnalysisResult :=
    { violations := [], files_analyzed := 1, patterns_checked := 0 }
  if !f.path_exists then (result, e)
  else if !(ALL_EXTENSIONS.contains f.suffix.toLower) then (result, e)
  else
    match f.read with
    | none => (result, e)
    | some content =>
      let st := analyze_rules reCompile e.include_info content f.path_str
        (allRules e.patterns) (result, e.compiled_patterns)
      (st.1, { e with compiled_patterns := st.2 })

/-- Default exclusion globs of `analyze_directory`. -/
def DEFAULT_EXCLUDES : List String :=
  ["**/venv/**", "**/.venv/**", "**/node_modules/**", "**/__pycache__/**",
   "**/.git/**"]

/-- Loop body of `analyze_directory`: skip excluded paths, analyze the rest,
sum the result fields. `globMatch path pattern` is the host `Path.match`. -/
def analyze_directory_go (reCompile : String → Option HostRegex)
    (globMatch : String → String → Bool) (excl : List String) :
    List FSFile → PatternEngine → AnalysisResult →
    AnalysisResult × PatternEngine
  | [], e, res => (res, e)
  | f :: t, e, res =>
    if excl.any (fun p => globMatch f.path_str p) then
      analyze_directory_go reCompile globMatch excl t e res
    else
      let fr := analyze_file reCompile e f
      analyze_directory_go reCompile globMatch excl t fr.2
        { violations := res.violations ++ fr.1.violations,
          files_analyzed := res.files_analyzed + fr.1.files_analyzed,
          patterns_checked := res.patterns_checked + fr.1.patterns_checked }

/-- `PatternEngine.analyze_directory` on an explicit enumeration of the
directory files: a falsy (empty) exclusion list is replaced by the default
globs. -/
def analyze_directory (reCompile : String → Option HostRegex)
    (globMatch : String → String → Bool) (e : PatternEngine)
    (files : List FSFile) (exclude_patterns : List String) :
    AnalysisResult × PatternEngine :=
  let excl := if exclude_patterns.isEmpty then DEFAULT_EXCLUDES
              else exclude_patterns
  analyze_directory_go reCompile globMatch excl files e
    { violations := [], files_analyzed := 0, patterns_checked := 0 }

/-! ### Reporter (reporter.py): SARIF construction and summary -/

/-- `PatternReporter._sarif_level`. -/
def sarif_level (severity : String) : String :=
  if severity == "error" then "error"
  else if severity == "warning" then "warning"
  else if severity == "info" then "note"
  else "note"

/-- Python `opt or default` on an optional string (`None` and `""` falsy). -/
def orElseStr (o : Option String) (d : String) : String :=
  match o with
  | none => d
  | some s => if s == "" then d else s

/-- One entry of the SARIF `rules` array. -/
structure SarifRule where
  id : String
  name : String
  shortDescription : String
  fullDescription : String
  helpText : String
  helpMarkdown : String
  level : String
deriving Repr, DecidableEq

def mkSarifRule (v : Violation) : SarifRule :=
  { id := v.pattern_id, name := v.pattern_id,
    shortDescription := v.description, fullDescription := v.description,
    helpText := orElseStr v.fix_suggestion v.description,
    helpMarkdown := "**DO:** " ++ orElseStr v.do_pattern "N/A"
      ++ "\n\n**DON\x27T:** " ++ orElseStr v.dont_pattern "N/A",
    level := sarif_level v.severity }

/-- One entry of the SARIF `results` array. -/
structure SarifResult where
  ruleId : String
  level : String
  message : String
  uri : String
  startLine : Nat
  startColumn : Nat
deriving Repr, DecidableEq

/-- The `rules_seen` construction of `to_sarif`: first occurrence of each
`pattern_id` contributes a rule, later occurrences are skipped. -/
def buildSarifRules (seen : List String) : List Violation → List SarifRule
  | [] => []
  | v :: t =>
    if seen.contains v.pattern_id then buildSarifRules seen t
    else mkSarifRule v :: buildSarifRules (seen ++ [v.pattern_id]) t

/-- The `results` construction of `to_sarif`: one entry per violation. -/
def buildSarifResults (vs : List Violation) : List SarifResult :=
  vs.map (fun v =>
    { ruleId := v.pattern_id, level := sarif_level v.severity,
      message := v.description, uri := v.file_path,
      startLine := v.line_number, startColumn := 1 })

def to_sarif_rules (r : AnalysisResult) : List SarifRule :=
  buildSarifRules [] r.violations

def to_sarif_results (r : AnalysisResult) : List SarifResult :=
  buildSarifResults r.violations

/-- `format_summary` status field. -/
def summary_status (r : AnalysisResult) : String :=
  if r.error_count == 0 then "PASS" else "FAIL"

/-! ### Analyzer data model (analyzers.py) -/

/-- `Finding` dataclass. -/
structure Finding where
  rule_id : String
  message : String
  line : Nat
  column : Nat
  severity : String
  suggestion : Option String := none
deriving Repr, DecidableEq

/-! ### SQLAnalyzer: character-level scanners for its three regexes

The source patterns are `\bSELECT\s+\*\s+FROM\b`, `\bSELECT\b.*\bFROM\b`
(with `.` not crossing a newline), `\bLIMIT\b`, and the table reference
pattern `\b(?:FROM|JOIN|INTO|UPDATE)\s+([a-zA-Z_][a-zA-Z0-9_]*)\b` used with
`finditer`.  Each scanner walks the character list with the previous
character tracked for the `\b` tests.  The alternatives inside `(?:...)`
start with distinct letters and every quantified class excludes the
character that follows it, so the regex matches are deterministic and the
scanners below decide them exactly. -/

def isWordChar (c : Char) : Bool := c.isAlphanum || c == '_'

/-- Python `\s` on ASCII input. -/
def isSpaceChar (c : Char) : Bool :=
  c == ' ' || c == '\t' || c == '\n' || c == '\x0d' || c == '\x0c' || c == '\x0b'

/-- `\b` holds between `prev` and the next character position. -/
def boundaryOk : Option Char → Bool
  | none => true
  | some c => !isWordChar c

/-- `w` is a prefix of `l` and is followed by a word boundary. -/
def boundedHead : List Char → List Char → Bool
  | [], [] => true
  | [], c :: _ => !isWordChar c
  | _ :: _, [] => false
  | a :: w, c :: l => a == c && boundedHead w l

/-- `re.search(r"\b<w>\b", ...)` starting with previous character `prev`. -/
def searchBounded (w : List Char) : Option Char → List Char → Bool
  | prev, [] => boundaryOk prev && boundedHead w []
  | prev, c :: t =>
    (boundaryOk prev && boundedHead w (c :: t)) || searchBounded w (some c) t

/-- After the literal `SELECT`: `\s+\*\s+FROM\b`. -/
def starFrom (l : List Char) : Bool :=
  let sp1 := l.takeWhile isSpaceChar
  let r1 := l.dropWhile isSpaceChar
  if sp1.isEmpty then false
  else
    match r1 with
    | '*' :: r2 =>
      let sp2 := r2.takeWhile isSpaceChar
      let r3 := r2.dropWhile isSpaceChar
      !sp2.isEmpty && boundedHead "FROM".toList r3
    | _ => false

/-- `re.search(r"\bSELECT\s+\*\s+FROM\b", ...)`. -/
def searchSelectStarFrom : Option Char → List Char → Bool
  | _, [] => false
  | prev, c :: t =>
    (boundaryOk prev && "SELECT".toList.isPrefixOf (c :: t)
      && starFrom ((c :: t).drop 6))
    || searchSelectStarFrom (some c) t

/-- Search for `\b<w>\b` where the gap consumed before the occurrence may not
contain a newline (the `.*` of the pattern). -/
def searchBoundedNoNl (w : List Char) : Option Char → List Char → Bool
  | prev, [] => boundaryOk prev && boundedHead w []
  | prev, c :: t =>
    (boundaryOk prev && boundedHead w (c :: t))
    || (!(c == '\n') && searchBoundedNoNl w (some c) t)

/-- `re.search(r"\bSELECT\b.*\bFROM\b", ...)`: a bounded `SELECT` with a
bounded `FROM` after it on the same line. -/
def searchSelectFrom : Option Char → List Char → Bool
  | _, [] => false
  | prev, c :: t =>
    (boundaryOk prev && boundedHead "SELECT".toList (c :: t)
      && searchBoundedNoNl "FROM".toList (some 'T') ((c :: t).drop 6))
    || searchSelectFrom (some c) t

def isIdentStart (c : Char) : Bool := c.isAlpha || c == '_'

def isIdentChar (c : Char) : Bool := isIdentStart c || c.isDigit

/-- Length of the keyword alternative `(?:FROM|JOIN|INTO|UPDATE)` matching at
the head of `l` (the alternatives start with distinct letters). -/
def kwAltLen (l : List Char) : Option Nat :=
  if "FROM".toList.isPrefixOf l then some 4
  else if "JOIN".toList.isPrefixOf l then some 4
  else if "INTO".toList.isPrefixOf l then some 4
  else if "UPDATE".toList.isPrefixOf l then some 6
  else none

/-- Try the table pattern at the current position: on success return the
captured identifier and the total number of characters consumed. -/
def matchTableAt (prev : Option Char) (l : List Char) :
    Option (List Char × Nat) :=
  if !boundaryOk prev then none
  else
    match kwAltLen l with
    | none => none
    | some k =>
      let r1 := l.drop k
      let sp := r1.takeWhile isSpaceChar
      if sp.isEmpty then none
      else
        match r1.dropWhile isSpaceChar with
        | [] => none
        | c :: t =>
          if isIdentStart c then
            let run := t.takeWhile isIdentChar
            some (c :: run, k + sp.length + 1 + run.length)
          else none

/-- Scanner for `findTables`: while `skip` is positive the scan is inside a
previous match and only steps forward (tracking the previous character for
the `\b` test); at `skip = 0` the pattern is tried at the current position,
and a match of total length `len` emits its capture and skips its remaining
`len - 1` characters, so matches never overlap. -/
def findTablesGo : Nat → Option Char → Nat → List Char →
    List (Nat × List Char)
  | _, _, _, [] => []
  | Nat.succ skip, _, pos, c :: t => findTablesGo skip (some c) (pos + 1) t
  | 0, prev, pos, c :: t =>
    match matchTableAt prev (c :: t) with
    | some nm => (pos, nm.1) :: findTablesGo (nm.2 - 1) (some c) (pos + 1) t
    | none => findTablesGo 0 (some c) (pos + 1) t

/-- `re.finditer` over the table pattern: non-overlapping matches with their
0-based start columns. -/
def findTables (prev : Option Char) (pos : Nat) (l : List Char) :
    List (Nat × List Char) :=
  findTablesGo 0 prev pos l

/-- The `UC001` findings of `SQLAnalyzer._check_line`: one warning per
table-pattern match whose captured name has no dot and is not in the
keyword-exclusion set. -/
def uc001Findings (line : String) (line_num : Nat) : List Finding :=
  (findTables none 0 line.toList).filterMap (fun pn =>
    let table_name := String.mk pn.2
    if !hasSubStr "." table_name
        && !(["SELECT", "WHERE", "AND", "OR", "ON"].contains
              (strUpper table_name)) then
      some { rule_id := "UC001",
             message := "Table \x27" ++ table_name ++ "\x27 not fully qualified",
             line := line_num, column := pn.1, severity := "warning",
             suggestion := some "Use catalog.schema.table format" }
    else none)

/-- `SQLAnalyzer._check_line`. -/
def sqlCheckLine (line : String) (line_num : Nat) : List Finding :=
  let l := line.toList
  let fs1 : List Finding :=
    if searchSelectStarFrom none l then
      [{ rule_id := "SQL008", message := "SELECT * usage (performance impact)",
         line := line_num, column := 0, severity := "warning",
         suggestion := some "Specify column names explicitly" }]
    else []
  let fs2 : List Finding :=
    if searchSelectFrom none l && !searchBounded "LIMIT".toList none l
        && countSub "SELECT".toList l == 1 then
      [{ rule_id := "SQL006", message := "Query without LIMIT clause",
         line := line_num, column := 0, severity := "info",
         suggestion := some "Add LIMIT for large tables" }]
    else []
  fs1 ++ fs2 ++ uc001Findings line line_num

/-- Per-line loop of `SQLAnalyzer.analyze` (1-based line numbers). -/
def sqlAnalyzeLines : Nat → List String → List Finding
  | _, [] => []
  | n, line :: rest => sqlCheckLine line n ++ sqlAnalyzeLines (n + 1) rest

/-- `SQLAnalyzer.analyze`: upper-case the content, then scan line by line. -/
def sqlAnalyze (content : String) : List Finding :=
  sqlAnalyzeLines 1 (splitlines (strUpper content))

/-! ### JSONAnalyzer

`json.loads` is a parameter producing a `JsonValue` tree (`none` models
`json.JSONDecodeError`, the only exception `analyze` catches).  The walk
itself can raise: `.items()` on a non-dict raises `AttributeError`, and the
`in` / `re.search` operations on a non-string url raise `TypeError`; these
are modelled with `Except`. -/

inductive JsonValue where
  | str (s : String)
  | num (n : Int)
  | boolean (b : Bool)
  | null
  | arr (xs : List JsonValue)
  | obj (kvs : List (String × JsonValue))

/-- Exceptions the JSON walk can raise. -/
inductive PyErr where
  | attributeError
  | typeError
deriving Repr, DecidableEq

/-- Python dict lookup on the modelled object entries. -/
def pyGet (kvs : List (String × JsonValue)) (k : String) : Option JsonValue :=
  (kvs.find? (fun kv => kv.1 == k)).map (fun kv => kv.2)

def hasKey (kvs : List (String × JsonValue)) (k : String) : Bool :=
  (pyGet kvs k).isSome

/-- Python `==` between a string and an arbitrary JSON value. -/
def eqStrVal (s : String) : JsonValue → Bool
  | JsonValue.str t => s == t
  | _ => false

/-- Python `needle in v`: substring test on strings, element equality on
lists, key membership on dicts, `TypeError` otherwise. -/
def pyInStr (needle : String) : JsonValue → Except PyErr Bool
  | JsonValue.str s => Except.ok (hasSubStr needle s)
  | JsonValue.arr xs => Except.ok (xs.any (eqStrVal needle))
  | JsonValue.obj kvs => Except.ok (hasKey kvs needle)
  | _ => Except.error PyErr.typeError

/-- Line scan for `findLineNumber`. -/
def findLineNumberGo : Nat → String → List String → Nat
  | _, _, [] => 1
  | n, search, line :: rest =>
    if hasSubStr search line then n else findLineNumberGo (n + 1) search rest

/-- `JSONAnalyzer._find_line_number`: first 1-based line containing the
search string, defaulting to 1. -/
def findLineNumber (content search : String) : Nat :=
  findLineNumberGo 1 search (splitlines content)

/-- The token-shape test of the analyzers (`re.match` anchored at both
ends): `dapi` followed by at least 32 alphanumerics, with the end anchor
also accepting one trailing newline. -/
def dapiShape (value : String) : Bool :=
  match value.toList with
  | 'd' :: 'a' :: 'p' :: 'i' :: rest =>
    let body := if rest.getLast? == some '\n' then rest.dropLast else rest
    decide (32 ≤ body.length) && body.all Char.isAlphanum
  | _ => false

/-- `re.search(r"genie/[\w-]+", url)`. -/
def searchGeniePath : List Char → Bool
  | [] => false
  | c :: t =>
    (match c :: t with
     | 'g' :: 'e' :: 'n' :: 'i' :: 'e' :: '/' :: d :: _ => isWordChar d || d == '-'
     | _ => false)
    || searchGeniePath t

/-- `[\w-]` character class. -/
def isWordDash (c : Char) : Bool := isWordChar c || c == '-'

/-- After the literal `vector-search/`: `[\w-]+/[\w-]+` (the class excludes
`/`, so the first quantifier must stop exactly at a slash). -/
def vsTail (l : List Char) : Bool :=
  let run := l.takeWhile isWordDash
  let rest := l.dropWhile isWordDash
  !run.isEmpty &&
    (match rest with
     | '/' :: d :: _ => isWordDash d
     | _ => false)

/-- `re.search(r"vector-search/[\w-]+/[\w-]+", url)`. -/
def searchVectorPath : List Char → Bool
  | [] => false
  | c :: t =>
    ("vector-search/".toList.isPrefixOf (c :: t) && vsTail ((c :: t).drop 14))
    || searchVectorPath t

/-- The vector-search branch of the url check: run only when
`"vector-search" in url` held; `re.search` on a non-string raises. -/
def vsUrlCheck (raw : String) (url : JsonValue) (hit : Bool) :
    Except PyErr (List Finding) :=
  if hit then
    match url with
    | JsonValue.str s =>
      Except.ok
        (if searchVectorPath s.toList then []
         else
           [{ rule_id := "MCP001",
              message := "Vector Search URL missing catalog/schema",
              line := findLineNumber raw s, column := 0, severity := "error",
              suggestion := some "Use /vector-search/\x7bcatalog\x7d/\x7bschema\x7d" }])
    | _ => Except.error PyErr.typeError
  else Except.ok []

/-- The genie branch of the url check. -/
def genieUrlCheck (raw : String) (url : JsonValue) (hit : Bool) :
    Except PyErr (List Finding) :=
  if hit then
    match url with
    | JsonValue.str s =>
      Except.ok
        (if searchGeniePath s.toList then []
         else
           [{ rule_id := "MCP002", message := "Genie URL missing genie_space_id",
              line := findLineNumber raw s, column := 0, severity := "error",
              suggestion := some "Use /genie/\x7bgenie_space_id\x7d" }])
    | _ => Except.error PyErr.typeError
  else Except.ok []

/-- Both url-shape checks of `_check_mcp_config` for one `url` value. -/
def checkUrl (raw : String) (url : JsonValue) : Except PyErr (List Finding) :=
  match pyInStr "vector-search" url with
  | Except.error e => Except.error e
  | Except.ok hitV =>
    match vsUrlCheck raw url hitV with
    | Except.error e => Except.error e
    | Except.ok fsV =>
      match pyInStr "mcp/genie" url with
      | Except.error e => Except.error e
      | Except.ok hitG =>
        match genieUrlCheck raw url hitG with
        | Except.error e => Except.error e
        | Except.ok fsG => Except.ok (fsV ++ fsG)

/-- One server entry: checked only when the config is a dict with a `url`. -/
def checkServerEntry (raw : String) (config : JsonValue) :
    Except PyErr (List Finding) :=
  match config with
  | JsonValue.obj ckvs =>
    match pyGet ckvs "url" with
    | none => Except.ok []
    | some url => checkUrl raw url
  | _ => Except.ok []

/-- The `for name, config in servers.items()` loop. -/
def checkServerUrls (raw : String) :
    List (String × JsonValue) → Except PyErr (List Finding)
  | [] => Except.ok []
  | (_, config) :: t =>
    match checkServerEntry raw config with
    | Except.error e => Except.error e
    | Except.ok fs =>
      match checkServerUrls raw t with
      | Except.error e => Except.error e
      | Except.ok rest => Except.ok (fs ++ rest)

/-- `JSONAnalyzer._check_mcp_config`: the two wrong-key-name checks, then the
url loop over `data.get("mcpServers", {})` — whose `.items()` raises
`AttributeError` when that value exists and is not a dict. -/
def checkMcpConfig (raw : String) (kvs : List (String × JsonValue)) :
    Except PyErr (List Finding) :=
  let fs1 : List Finding :=
    if hasKey kvs "servers" && !hasKey kvs "mcpServers" then
      [{ rule_id := "MCP004",
         message := "Use \x27mcpServers\x27 instead of \x27servers\x27",
         line := findLineNumber raw "servers", column := 0, severity := "error",
         suggestion := some "Rename key to \"mcpServers\"" }]
    else []
  let fs2 : List Finding :=
    if hasKey kvs "mcp_servers" && !hasKey kvs "mcpServers" then
      [{ rule_id := "MCP004",
         message := "Use \x27mcpServers\x27 instead of \x27mcp_servers\x27",
         line := findLineNumber raw "mcp_servers", column := 0,
         severity := "error",
         suggestion := some "Rename key to \"mcpServers\"" }]
    else []
  match (pyGet kvs "mcpServers").getD (JsonValue.obj []) with
  | JsonValue.obj srv =>
    match checkServerUrls raw srv with
    | Except.error e => Except.error e
    | Except.ok fs3 => Except.ok (fs1 ++ fs2 ++ fs3)
  | _ => Except.error PyErr.attributeError

mutual

/-- `JSONAnalyzer._analyze_structure`: on a dict, run the registry check if
one of the three known key spellings is present, then walk the entries;
every other node yields nothing. -/
def analyzeStructure : JsonValue → String → String → Except PyErr (List Finding)
  | JsonValue.obj kvs, raw, path =>
    match (if hasKey kvs "mcpServers" || hasKey kvs "mcp_servers"
              || hasKey kvs "servers"
           then checkMcpConfig raw kvs else Except.ok []) with
    | Except.error e => Except.error e
    | Except.ok fs1 =>
      match walkKvs kvs raw path with
      | Except.error e => Except.error e
      | Except.ok fs2 => Except.ok (fs1 ++ fs2)
  | _, _, _ => Except.ok []
termination_by structural d => d

/-- The `for key, value in data.items()` loop of `_analyze_structure`:
string values are tested against the token shape, dict values are recursed
into, everything else is skipped. -/
def walkKvs : List (String × JsonValue) → String → String →
    Except PyErr (List Finding)
  | [], _, _ => Except.ok []
  | (k, JsonValue.str s) :: t, raw, path =>
    let new_path := if path == "" then k else path ++ "." ++ k
    let fs : List Finding :=
      if dapiShape s then
        [{ rule_id := "AUTH003", message := "Hardcoded token at " ++ new_path,
           line := findLineNumber raw s, column := 0, severity := "error",
           suggestion := some "Use environment variable reference" }]
      else []
    (match walkKvs t raw path with
     | Except.error e => Except.error e
     | Except.ok rest => Except.ok (fs ++ rest))
  | (k, JsonValue.obj kvs2) :: t, raw, path =>
    let new_path := if path == "" then k else path ++ "." ++ k
    (match analyzeStructure (JsonValue.obj kvs2) raw new_path with
     | Except.error e => Except.error e
     | Except.ok fs =>
       match walkKvs t raw path with
       | Except.error e => Except.error e
       | Except.ok rest => Except.ok (fs ++ rest))
  | _ :: t, raw, path => walkKvs t raw path
termination_by structural l => l

end

/-- `JSONAnalyzer.analyze`, parameterized by the host `json.loads` (only
`JSONDecodeError` — modelled as `none` — is caught). -/
def jsonAnalyze (jsonLoads : String → Option JsonValue) (content : String) :
    Except PyErr (List Finding) :=
  match jsonLoads content with
  | none => Except.ok []
  | some data => analyzeStructure data content ""

/-! ### Helper lemmas -/

/-- 1-based numbering of a line list. -/
def numberLines : Nat → List String → List (Nat × String)
  | _, [] => []
  | n, l :: t => (n, l) :: numberLines (n + 1) t

theorem scanLines_eq_filterMap (m : HostRegex) (p : Pattern) (fp : String) :
    ∀ (ls : List String) (n : Nat),
      scanLines m p fp n ls
        = (numberLines n ls).filterMap
            (fun nl => if m nl.2 then some (mkViolation p fp nl.1 nl.2) else none) := by
  intro ls
  induction ls with
  | nil => intro n; simp [scanLines, numberLines]
  | cons l t ih =>
    intro n
    simp only [scanLines, numberLines, List.filterMap_cons]
    by_cases h : m l
    · simp [h, ih]
    · simp [h, ih]

theorem cacheLookup_append (c d : RegexCache) (k : String) (v : HostRegex)
    (h : cacheLookup c k = some v) : cacheLookup (c ++ d) k = some v := by
  induction c with
  | nil => simp [cacheLookup, List.find?] at h
  | cons e t ih =>
    simp only [cacheLookup, List.cons_append, List.find?] at h ⊢
    by_cases he : e.1 == k
    · simpa [he] using h
    · simp only [he] at h ⊢
      exact ih h

theorem check_regex_cache_mono (reCompile : String → Option HostRegex)
    (cache : RegexCache) (content : String) (p : Pattern) (fp : String)
    (k : String) (v : HostRegex) (h : cacheLookup cache k = some v) :
    cacheLookup (check_regex_pattern reCompile cache content p fp).2 k = some v := by
  unfold check_regex_pattern
  split
  · exact h
  · split
    · exact h
    · split
      · exact h
      · split
        · exact h
        · exact cacheLookup_append _ _ _ _ h

theorem analyze_rules_cache_mono (reCompile : String → Option HostRegex)
    (ii : Bool) (content fname : String) (k : String) (v : HostRegex) :
    ∀ (rules : List Pattern) (res : AnalysisResult) (cache : RegexCache),
      cacheLookup cache k = some v →
      cacheLookup (analyze_rules reCompile ii content fname rules (res, cache)).2 k
        = some v := by
  intro rules
  induction rules with
  | nil => intro res cache h; simpa [analyze_rules] using h
  | cons p rest ih =>
    intro res cache h
    simp only [analyze_rules]
    by_cases h1 : (!ii && p.severity == "info") = true
    · simp only [h1, if_pos rfl]
      exact ih _ _ h
    · simp only [if_neg h1]
      by_cases h2 : truthyStrOpt p.regex = true
      · simp only [h2, if_pos rfl]
        exact ih _ _ (check_regex_cache_mono reCompile cache content p fname k v h)
      · simp only [if_neg h2]
        exact ih _ _ h

theorem analyze_rules_fst_frame (reCompile : String → Option HostRegex)
    (ii : Bool) (content fname : String) :
    ∀ (rules : List Pattern) (res : AnalysisResult) (cache : RegexCache),
      (analyze_rules reCompile ii content fname rules (res, cache)).1.files_analyzed
        = res.files_analyzed := by
  intro rules
  induction rules with
  | nil => intro res cache; simp [analyze_rules]
  | cons p rest ih =>
    intro res cache
    simp only [analyze_rules]
    by_cases h1 : (!ii && p.severity == "info") = true
    · simp only [h1, if_pos rfl]; exact ih _ _
    · simp only [if_neg h1]
      by_cases h2 : truthyStrOpt p.regex = true
      · simp only [h2, if_pos rfl]; exact ih _ _
      · simp only [if_neg h2]; exact ih _ _

theorem analyze_string_frame (reCompile : String → Option HostRegex)
    (e : PatternEngine) (content ftype fname : String) (k : String)
    (v : HostRegex) (h : cacheLookup e.compiled_patterns k = some v) :
    (analyze_string reCompile e content ftype fname).2.patterns = e.patterns
    ∧ (analyze_string reCompile e content ftype fname).2.include_info
        = e.include_info
    ∧ cacheLookup
        (analyze_string reCompile e content ftype fname).2.compiled_patterns k
        = some v := by
  refine ⟨rfl, rfl, ?_⟩
  exact analyze_rules_cache_mono reCompile e.include_info content fname k v _ _ _ h

theorem analyze_file_frame (reCompile : String → Option HostRegex)
    (e : PatternEngine) (f : FSFile) (k : String) (v : HostRegex)
    (h : cacheLookup e.compiled_patterns k = some v) :
    (analyze_file reCompile e f).2.patterns = e.patterns
    ∧ (analyze_file reCompile e f).2.include_info = e.include_info
    ∧ cacheLookup (analyze_file reCompile e f).2.compiled_patterns k = some v := by
  unfold analyze_file
  split
  · exact ⟨rfl, rfl, h⟩
  · split
    · exact ⟨rfl, rfl, h⟩
    · split
      · exact ⟨rfl, rfl, h⟩
      · exact ⟨rfl, rfl,
          analyze_rules_cache_mono reCompile e.include_info _ _ k v _ _ _ h⟩

theorem analyze_directory_go_frame (reCompile : String → Option HostRegex)
    (globMatch : String → String → Bool) (excl : List String) (k : String)
    (v : HostRegex) :
    ∀ (files : List FSFile) (e : PatternEngine) (res : AnalysisResult),
      cacheLookup e.compiled_patterns k = some v →
      (analyze_directory_go reCompile globMatch excl files e res).2.patterns
          = e.patterns
      ∧ (analyze_directory_go reCompile globMatch excl files e res).2.include_info
          = e.include_info
      ∧ cacheLookup
          (analyze_directory_go reCompile globMatch excl files e
            res).2.compiled_patterns k = some v := by
  intro files
  induction files with
  | nil => intro e res h; exact ⟨rfl, rfl, h⟩
  | cons f t ih =>
    intro e res h
    simp only [analyze_directory_go]
    split
    · exact ih _ _ h
    · have hf := analyze_file_frame reCompile e f k v h
      refine ⟨?_, ?_, ?_⟩
      · exact ((ih _ _ hf.2.2).1).trans hf.1
      · exact ((ih _ _ hf.2.2).2.1).trans hf.2.1
      · exact (ih _ _ hf.2.2).2.2

theorem analyze_directory_frame (reCompile : String → Option HostRegex)
    (globMatch : String → String → Bool) (e : PatternEngine)
    (files : List FSFile) (exclude_patterns : List String) (k : String)
    (v : HostRegex) (h : cacheLookup e.compiled_patterns k = some v) :
    (analyze_directory reCompile globMatch e files exclude_patterns).2.patterns
        = e.patterns
    ∧ (analyze_directory reCompile globMatch e files
        exclude_patterns).2.include_info = e.include_info
    ∧ cacheLookup
        (analyze_directory reCompile globMatch e files
          exclude_patterns).2.compiled_patterns k = some v := by
  unfold analyze_directory
  exact analyze_directory_go_frame reCompile globMatch _ k v files e _ h

theorem mem_scanLines_severity (m : HostRegex) (p : Pattern) (fp : String) :
    ∀ (ls : List String) (n : Nat) (v : Violation),
      v ∈ scanLines m p fp n ls → v.severity = p.severity := by
  intro ls
  induction ls with
  | nil => intro n v hv; simp [scanLines] at hv
  | cons l t ih =>
    intro n v hv
    simp only [scanLines, List.mem_append] at hv
    rcases hv with hv | hv
    · by_cases h : m l
      · simp only [h, if_pos] at hv
        simp only [List.mem_singleton] at hv
        subst hv; rfl
      · simp [h] at hv
    · exact ih _ _ hv

theorem mem_check_regex_severity (reCompile : String → Option HostRegex)
    (cache : RegexCache) (content : String) (p : Pattern) (fp : String)
    (v : Violation)
    (hv : v ∈ (check_regex_pattern reCompile cache content p fp).1) :
    v.severity = p.severity := by
  unfold check_regex_pattern at hv
  revert hv
  split
  · intro hv; simp at hv
  · split
    · intro hv; simp at hv
    · split
      · exact mem_scanLines_severity _ p fp _ 1 v
      · split
        · intro hv; simp at hv
        · exact mem_scanLines_severity _ p fp _ 1 v

theorem analyze_rules_no_info (reCompile : String → Option HostRegex)
    (content fname : String) :
    ∀ (rules : List Pattern) (res : AnalysisResult) (cache : RegexCache),
      (∀ v ∈ res.violations, v.severity ≠ "info") →
      ∀ v ∈ (analyze_rules reCompile false content fname rules
              (res, cache)).1.violations, v.severity ≠ "info" := by
  intro rules
  induction rules with
  | nil => intro res cache hres; simpa [analyze_rules] using hres
  | cons p rest ih =>
    intro res cache hres
    simp only [analyze_rules]
    by_cases h1 : (!false && p.severity == "info") = true
    · simp only [h1, if_pos rfl]
      exact ih _ _ hres
    · simp only [if_neg h1]
      have hsev : p.severity ≠ "info" := by
        simpa using h1
      by_cases h2 : truthyStrOpt p.regex = true
      · simp only [h2, if_pos rfl]
        refine ih _ _ ?_
        intro v hv
        simp only [List.mem_append] at hv
        rcases hv with hv | hv
        · exact hres v hv
        · rw [mem_check_regex_severity reCompile cache content p fname v hv]
          exact hsev
      · simp only [if_neg h2]
        exact ih _ _ hres

theorem analyze_string_no_info (reCompile : String → Option HostRegex)
    (e : PatternEngine) (content ftype fname : String)
    (h : e.include_info = false) :
    ∀ v ∈ (analyze_string reCompile e content ftype fname).1.violations,
      v.severity ≠ "info" := by
  unfold analyze_string
  rw [h]
  exact analyze_rules_no_info reCompile content fname _ _ _ (by intro v hv; simp at hv)

theorem analyze_file_no_info (reCompile : String → Option HostRegex)
    (e : PatternEngine) (f : FSFile) (h : e.include_info = false) :
    ∀ v ∈ (analyze_file reCompile e f).1.violations, v.severity ≠ "info" := by
  unfold analyze_file
  split
  · intro v hv; simp at hv
  · split
    · intro v hv; simp at hv
    · split
      · intro v hv; simp at hv
      · rw [h]
        exact analyze_rules_no_info reCompile _ _ _ _ _
          (by intro v hv; simp at hv)

theorem analyze_file_keeps_include_info (reCompile : String → Option HostRegex)
    (e : PatternEngine) (f : FSFile) :
    (analyze_file reCompile e f).2.include_info = e.include_info := by
  unfold analyze_file
  split
  · rfl
  · split
    · rfl
    · split
      · rfl
      · rfl

theorem analyze_directory_go_no_info (reCompile : String → Option HostRegex)
    (globMatch : String → String → Bool) (excl : List String) :
    ∀ (files : List FSFile) (e : PatternEngine) (res : AnalysisResult),
      e.include_info = false →
      (∀ v ∈ res.violations, v.severity ≠ "info") →
      ∀ v ∈ (analyze_directory_go reCompile globMatch excl files e
              res).1.violations, v.severity ≠ "info" := by
  intro files
  induction files with
  | nil => intro e res he hres; simpa [analyze_directory_go] using hres
  | cons f t ih =>
    intro e res he hres
    simp only [analyze_directory_go]
    split
    · exact ih _ _ he hres
    · refine ih _ _ ?_ ?_
      · exact (analyze_file_keeps_include_info reCompile e f).trans he
      · intro v hv
        simp only [List.mem_append] at hv
        rcases hv with hv | hv
        · exact hres v hv
        · exact analyze_file_no_info reCompile e f he v hv

theorem buildSarifRules_ids_mem :
    ∀ (vs : List Violation) (seen : List String) (pid : String),
      pid ∈ (buildSarifRules seen vs).map (fun sr => sr.id)
        ↔ (pid ∈ vs.map (fun v => v.pattern_id) ∧ pid ∉ seen) := by
  intro vs
  induction vs with
  | nil => intro seen pid; simp [buildSarifRules]
  | cons v t ih =>
    intro seen pid
    simp only [buildSarifRules]
    by_cases hs : seen.contains v.pattern_id
    · rw [if_pos hs]
      have hmem : v.pattern_id ∈ seen := by simpa [List.elem_iff] using hs
      rw [ih]
      simp only [List.map_cons, List.mem_cons]
      constructor
      · rintro ⟨h1, h2⟩; exact ⟨Or.inr h1, h2⟩
      · rintro ⟨h1, h2⟩
        rcases h1 with h1 | h1
        · exact absurd (h1 ▸ hmem) h2
        · exact ⟨h1, h2⟩
    · rw [if_neg hs]
      have hmem : v.pattern_id ∉ seen := by
        intro hc; exact hs (by simpa [List.elem_iff] using hc)
      simp only [List.map_cons, List.mem_cons, mkSarifRule]
      rw [ih]
      simp only [List.mem_append, List.mem_singleton]
      constructor
      · rintro (h1 | ⟨h1, h2⟩)
        · exact ⟨Or.inl h1, h1 ▸ hmem⟩
        · exact ⟨Or.inr h1, fun hc => h2 (Or.inl hc)⟩
      · rintro ⟨h1, h2⟩
        rcases h1 with h1 | h1
        · exact Or.inl h1
        · by_cases he : pid = v.pattern_id
          · exact Or.inl he
          · exact Or.inr ⟨h1, fun hc => (hc.elim (fun hx => h2 hx) he)⟩

theorem buildSarifRules_ids_nodup :
    ∀ (vs : List Violation) (seen : List String),
      ((buildSarifRules seen vs).map (fun sr => sr.id)).Nodup := by
  intro vs
  induction vs with
  | nil => intro seen; simp [buildSarifRules]
  | cons v t ih =>
    intro seen
    simp only [buildSarifRules]
    by_cases hs : seen.contains v.pattern_id
    · rw [if_pos hs]; exact ih seen
    · rw [if_neg hs]
      simp only [List.map_cons, List.nodup_cons, mkSarifRule]
      refine ⟨?_, ih _⟩
      intro hc
      have := (buildSarifRules_ids_mem t (seen ++ [v.pattern_id]) v.pattern_id).1 hc
      exact this.2 (by simp)

theorem mem_buildSarifResults (vs : List Violation) (sr : SarifResult)
    (h : sr ∈ buildSarifResults vs) :
    sr.ruleId ∈ vs.map (fun v => v.pattern_id) := by
  unfold buildSarifResults at h
  rcases List.mem_map.1 h with ⟨v, hv, heq⟩
  subst heq
  exact List.mem_map.2 ⟨v, hv, rfl⟩

/-- The `new_path` step of the walk: `f"{path}.{key}" if path else key`. -/
def extendPath (path k : String) : String :=
  if path == "" then k else path ++ "." ++ k

/-- The dotted path the walk has built after descending through the keys
`ks`, starting from `path`. -/
def pathOf (path : String) (ks : List String) : String :=
  ks.foldl extendPath path

/-- The exact finding the credential-token scan emits for a value `s`
reached at dotted path `np` in raw text `raw`. -/
def tokenFinding (raw np s : String) : Finding :=
  { rule_id := "AUTH003", message := "Hardcoded token at " ++ np,
    line := findLineNumber raw s, column := 0, severity := "error",
    suggestion := some "Use environment variable reference" }

/-- A credential-shaped string `s` sits as a direct value of a mapping
reachable from the root through mapping values only (the only shape the
walk of `_analyze_structure` visits), under the key sequence `ks`. -/
inductive DictTokenPath : JsonValue → List String → String → Prop
  | here (kvs : List (String × JsonValue)) (k s : String) :
      (k, JsonValue.str s) ∈ kvs → dapiShape s = true →
      DictTokenPath (JsonValue.obj kvs) [k] s
  | nest (kvs : List (String × JsonValue)) (k : String)
      (kvs2 : List (String × JsonValue)) (ks : List String) (s : String) :
      (k, JsonValue.obj kvs2) ∈ kvs →
      DictTokenPath (JsonValue.obj kvs2) ks s →
      DictTokenPath (JsonValue.obj kvs) (k :: ks) s

theorem walkKvs_mem_here :
    ∀ (kvs : List (String × JsonValue)) (raw path : String)
      (fs : List Finding) (k s : String),
      (k, JsonValue.str s) ∈ kvs → dapiShape s = true →
      walkKvs kvs raw path = Except.ok fs →
      tokenFinding raw (extendPath path k) s ∈ fs := by
  intro kvs
  induction kvs with
  | nil => intro raw path fs k s hmem _ _; simp at hmem
  | cons hd t ih =>
    intro raw path fs k s hmem hshape hwalk
    obtain ⟨k', v'⟩ := hd
    rcases List.mem_cons.1 hmem with heq | hmem'
    · injection heq with hk hv
      subst hk; subst hv
      cases hrec : walkKvs t raw path with
      | error e => simp [walkKvs, hrec] at hwalk
      | ok rest =>
        simp only [walkKvs, hrec, hshape, if_true, Except.ok.injEq] at hwalk
        subst hwalk
        simp [tokenFinding, extendPath]
    · cases v' with
      | str s' =>
        cases hrec : walkKvs t raw path with
        | error e => simp [walkKvs, hrec] at hwalk
        | ok rest =>
          simp only [walkKvs, hrec, Except.ok.injEq] at hwalk
          subst hwalk
          exact List.mem_append_right _ (ih raw path rest k s hmem' hshape hrec)
      | obj kvs2 =>
        simp only [walkKvs] at hwalk
        cases ha : analyzeStructure (JsonValue.obj kvs2) raw
            (if path == "" then k' else path ++ "." ++ k') with
        | error e => rw [ha] at hwalk; simp at hwalk
        | ok fsa =>
          rw [ha] at hwalk
          cases hrec : walkKvs t raw path with
          | error e => rw [hrec] at hwalk; simp at hwalk
          | ok rest =>
            rw [hrec] at hwalk
            simp only [Except.ok.injEq] at hwalk
            subst hwalk
            exact List.mem_append_right _ (ih raw path rest k s hmem' hshape hrec)
      | num n =>
        exact ih raw path fs k s hmem' hshape (by simpa [walkKvs] using hwalk)
      | boolean b =>
        exact ih raw path fs k s hmem' hshape (by simpa [walkKvs] using hwalk)
      | null =>
        exact ih raw path fs k s hmem' hshape (by simpa [walkKvs] using hwalk)
      | arr xs =>
        exact ih raw path fs k s hmem' hshape (by simpa [walkKvs] using hwalk)

theorem walkKvs_mem_nest :
    ∀ (kvs : List (String × JsonValue)) (raw path : String)
      (fs : List Finding) (k : String) (kvs2 : List (String × JsonValue))
      (ks : List String) (s : String),
      (k, JsonValue.obj kvs2) ∈ kvs →
      (∀ (raw' path' : String) (fs' : List Finding),
        analyzeStructure (JsonValue.obj kvs2) raw' path' = Except.ok fs' →
        tokenFinding raw' (pathOf path' ks) s ∈ fs') →
      walkKvs kvs raw path = Except.ok fs →
      tokenFinding raw (pathOf (extendPath path k) ks) s ∈ fs := by
  intro kvs
  induction kvs with
  | nil => intro raw path fs k kvs2 ks s hmem _ _; simp at hmem
  | cons hd t ih =>
    intro raw path fs k kvs2 ks s hmem hrecur hwalk
    obtain ⟨k', v'⟩ := hd
    rcases List.mem_cons.1 hmem with heq | hmem'
    · injection heq with hk hv
      subst hk; subst hv
      simp only [walkKvs] at hwalk
      cases ha : analyzeStructure (JsonValue.obj kvs2) raw
          (if path == "" then k else path ++ "." ++ k) with
      | error e => rw [ha] at hwalk; simp at hwalk
      | ok fsa =>
        rw [ha] at hwalk
        cases hrec : walkKvs t raw path with
        | error e => rw [hrec] at hwalk; simp at hwalk
        | ok rest =>
          rw [hrec] at hwalk
          simp only [Except.ok.injEq] at hwalk
          subst hwalk
          refine List.mem_append_left _ ?_
          exact hrecur raw _ fsa ha
    · cases v' with
      | str s' =>
        cases hrec : walkKvs t raw path with
        | error e => simp [walkKvs, hrec] at hwalk
        | ok rest =>
          simp only [walkKvs, hrec, Except.ok.injEq] at hwalk
          subst hwalk
          exact List.mem_append_right _
            (ih raw path rest k kvs2 ks s hmem' hrecur hrec)
      | obj kvs3 =>
        simp only [walkKvs] at hwalk
        cases ha : analyzeStructure (JsonValue.obj kvs3) raw
            (if path == "" then k' else path ++ "." ++ k') with
        | error e => rw [ha] at hwalk; simp at hwalk
        | ok fsa =>
          rw [ha] at hwalk
          cases hrec : walkKvs t raw path with
          | error e => rw [hrec] at hwalk; simp at hwalk
          | ok rest =>
            rw [hrec] at hwalk
            simp only [Except.ok.injEq] at hwalk
            subst hwalk
            exact List.mem_append_right _
              (ih raw path rest k kvs2 ks s hmem' hrecur hrec)
      | num n =>
        exact ih raw path fs k kvs2 ks s hmem' hrecur
          (by simpa [walkKvs] using hwalk)
      | boolean b =>
        exact ih raw path fs k kvs2 ks s hmem' hrecur
          (by simpa [walkKvs] using hwalk)
      | null =>
        exact ih raw path fs k kvs2 ks s hmem' hrecur
          (by simpa [walkKvs] using hwalk)
      | arr xs =>
        exact ih raw path fs k kvs2 ks s hmem' hrecur
          (by simpa [walkKvs] using hwalk)

theorem analyzeStructure_token_mem (d : JsonValue) (ks : List String)
    (s : String) (hd : DictTokenPath d ks s) :
    ∀ (raw path : String) (fs : List Finding),
      analyzeStructure d raw path = Except.ok fs →
      tokenFinding raw (pathOf path ks) s ∈ fs := by
  induction hd with
  | here kvs k s hmem hshape =>
    intro raw path fs hstruct
    simp only [analyzeStructure] at hstruct
    cases hmcp : (if hasKey kvs "mcpServers" || hasKey kvs "mcp_servers"
          || hasKey kvs "servers"
        then checkMcpConfig raw kvs else Except.ok []) with
    | error e => rw [hmcp] at hstruct; simp at hstruct
    | ok fs1 =>
      rw [hmcp] at hstruct
      cases hw : walkKvs kvs raw path with
      | error e => rw [hw] at hstruct; simp at hstruct
      | ok fs2 =>
        rw [hw] at hstruct
        simp only [Except.ok.injEq] at hstruct
        subst hstruct
        exact List.mem_append_right _
          (walkKvs_mem_here kvs raw path fs2 k s hmem hshape hw)
  | nest kvs k kvs2 ks s hmem _ ih =>
    intro raw path fs hstruct
    simp only [analyzeStructure] at hstruct
    cases hmcp : (if hasKey kvs "mcpServers" || hasKey kvs "mcp_servers"
          || hasKey kvs "servers"
        then checkMcpConfig raw kvs else Except.ok []) with
    | error e => rw [hmcp] at hstruct; simp at hstruct
    | ok fs1 =>
      rw [hmcp] at hstruct
      cases hw : walkKvs kvs raw path with
      | error e => rw [hw] at hstruct; simp at hstruct
      | ok fs2 =>
        rw [hw] at hstruct
        simp only [Except.ok.injEq] at hstruct
        subst hstruct
        exact List.mem_append_right _
          (walkKvs_mem_nest kvs raw path fs2 k kvs2 ks s hmem ih hw)

theorem check_regex_fresh (reCompile : String → Option HostRegex)
    (cache : RegexCache) (content : String) (p : Pattern) (fp r : String)
    (m : HostRegex) (hreg : p.regex = some r) (hr : r ≠ "")
    (hcache : cacheLookup cache r = none) (hcomp : reCompile r = some m) :
    check_regex_pattern reCompile cache content p fp
      = (scanLines m p fp 1 (splitlines content), cache ++ [(r, m)]) := by
  simp only [check_regex_pattern, hreg, hcache, hcomp]
  rw [if_neg]
  simp [hr]

theorem info_count_zero_of_no_info (r : AnalysisResult)
    (h : ∀ v ∈ r.violations, v.severity ≠ "info") : r.info_count = 0 := by
  unfold AnalysisResult.info_count
  rw [List.length_eq_zero, List.filter_eq_nil_iff]
  intro v hv
  simpa using h v hv

theorem mem_uc001_rule (line : String) (n : Nat) :
    ∀ g ∈ uc001Findings line n, g.rule_id = "UC001" := by
  intro g hg
  unfold uc001Findings at hg
  rcases List.mem_filterMap.1 hg with ⟨pn, _, heq⟩
  revert heq
  dsimp only
  split
  · intro heq
    simp only [Option.some.injEq] at heq
    subst heq
    rfl
  · intro heq; cases heq

/-! ### Concrete demonstration values used by witnesses and
counterexamples -/

/-- A demonstration compiled regex: `re.search("x", line)`. -/
def mxDemo : HostRegex := fun line => hasSubStr "x" line

/-- A demonstration host compiler under which every pattern compiles. -/
def reCompileDemo : String → Option HostRegex := fun _ => some mxDemo

/-- A demonstration host compiler under which no pattern compiles (what
`re.compile` does on a malformed pattern such as an unbalanced bracket). -/
def reCompileNone : String → Option HostRegex := fun _ => none

def globDemo : String → String → Bool := fun _ _ => false

def pInfoDemo : Pattern :=
  { id := "P1", severity := "info", category := "testing",
    description := "demo info rule", regex := some "x" }

def pWarnDemo : Pattern :=
  { id := "R1", severity := "warning", category := "testing",
    description := "demo warning rule", regex := some "x",
    fix_suggestion := some "remove x" }

def pBadDemo : Pattern :=
  { id := "B1", severity := "warning", category := "testing",
    description := "demo rule with malformed regex", regex := some "(" }

def engineInfoDemo : PatternEngine := ⟨[("demo", [pInfoDemo])], false, []⟩

def c2FileDemo : FSFile := ⟨"missing.py", false, ".py", none⟩

def cacheDemo : RegexCache := [("x", mxDemo)]

def engineCacheDemo : PatternEngine := ⟨[("demo", [pWarnDemo])], false, cacheDemo⟩

/-! ### Claim theorems -/

/-- C1 (amended): for a rule whose regex compiles in the host dialect, whose
regex text is non-empty, and which passes the severity filter
(`include_info` set, or severity not `info`), `analyze_string` emits zero
violations for every non-matching line and exactly one violation for every
matching line, carrying the rule id, severity, category, description, the
1-based line number and the raw untrimmed line text. -/
theorem C1_per_line_exactness (reCompile : String → Option HostRegex)
    (ii : Bool) (cat : String) (p : Pattern) (r : String) (m : HostRegex)
    (content ftype fname : String)
    (hreg : p.regex = some r) (hr : r ≠ "") (hcomp : reCompile r = some m)
    (hact : ii = true ∨ p.severity ≠ "info") :
    (analyze_string reCompile ⟨[(cat, [p])], ii, []⟩ content ftype
        fname).1.violations
      = (numberLines 1 (splitlines content)).filterMap
          (fun nl => if m nl.2 then some
            { pattern_id := p.id, severity := p.severity,
              category := p.category, description := p.description,
              file_path := fname, line_number := nl.1, line_content := nl.2,
              fix_suggestion := p.fix_suggestion, do_pattern := p.do_pattern,
              dont_pattern := p.dont_pattern } else none) := by
  have hfilter : (!ii && p.severity == "info") = false := by
    rcases hact with h | h
    · simp [h]
    · simp [h]
  have htruthy : truthyStrOpt p.regex = true := by
    simp [truthyStrOpt, hreg, hr]
  unfold analyze_string
  have hall : allRules [(cat, [p])] = [p] := by simp [allRules]
  rw [hall]
  simp only [analyze_rules, hfilter, htruthy]
  rw [check_regex_fresh reCompile [] content p fname r m hreg hr rfl hcomp]
  simp only [analyze_rules]
  rw [scanLines_eq_filterMap]
  simp [mkViolation]

/-- C1 counterexample: an `info`-severity rule with a valid regex under an
engine left at the default `include_info = false` produces zero violations on
a matching line, where the claim demands exactly one. -/
theorem C1_counterexample :
    (reCompileDemo "x").isSome = true
    ∧ mxDemo "x" = true
    ∧ (analyze_string reCompileDemo engineInfoDemo "x" "python"
        "f").1.violations = [] := by
  exact ⟨rfl, by decide, rfl⟩

/-- C1 witness: the amended per-line exactness at a concrete rule,
host compiler and two-line input whose second line matches. -/
theorem C1_witness :
    pWarnDemo.regex = some "x" ∧ ("x" : String) ≠ ""
    ∧ reCompileDemo "x" = some mxDemo
    ∧ (false = true ∨ pWarnDemo.severity ≠ "info")
    ∧ (analyze_string reCompileDemo ⟨[("demo", [pWarnDemo])], false, []⟩
        "ab\nxc" "python" "f").1.violations
      = (numberLines 1 (splitlines "ab\nxc")).filterMap
          (fun nl => if mxDemo nl.2 then some
            { pattern_id := pWarnDemo.id, severity := pWarnDemo.severity,
              category := pWarnDemo.category,
              description := pWarnDemo.description,
              file_path := "f", line_number := nl.1, line_content := nl.2,
              fix_suggestion := pWarnDemo.fix_suggestion,
              do_pattern := pWarnDemo.do_pattern,
              dont_pattern := pWarnDemo.dont_pattern } else none) := by
  refine ⟨rfl, by decide, rfl, Or.inr (by decide), ?_⟩
  exact C1_per_line_exactness reCompileDemo false "demo" pWarnDemo "x" mxDemo
    "ab\nxc" "python" "f" rfl (by decide) rfl (Or.inr (by decide))

/-- C2: `analyze_file` on a missing path, an unrecognized (lower-cased)
extension, or a failing read returns an empty violation list with
`files_analyzed = 1`; it never raises (the embedding is a total function
whose only failure outlets are these three early returns). -/
theorem C2_analyze_file_best_effort (reCompile : String → Option HostRegex)
    (e : PatternEngine) (f : FSFile)
    (h : f.path_exists = false
      ∨ f.suffix.toLower ∉ ALL_EXTENSIONS
      ∨ f.read = none) :
    (analyze_file reCompile e f).1.violations = []
    ∧ (analyze_file reCompile e f).1.files_analyzed = 1 := by
  rcases h with h | h | h
  · simp [analyze_file, h]
  · cases hex : f.path_exists with
    | false => simp [analyze_file, hex]
    | true => simp [analyze_file, hex, h]
  · cases hex : f.path_exists with
    | false => simp [analyze_file, hex]
    | true =>
      by_cases hsuf : f.suffix.toLower ∈ ALL_EXTENSIONS
      · simp [analyze_file, hex, hsuf, h]
      · simp [analyze_file, hex, hsuf]

/-- C2 witness: a missing `.py` file yields the empty result with
`files_analyzed = 1`. -/
theorem C2_witness :
    c2FileDemo.path_exists = false
    ∧ (analyze_file reCompileDemo engineInfoDemo c2FileDemo).1.violations = []
    ∧ (analyze_file reCompileDemo engineInfoDemo
        c2FileDemo).1.files_analyzed = 1 := by
  refine ⟨rfl, ?_⟩
  exact C2_analyze_file_best_effort reCompileDemo engineInfoDemo c2FileDemo
    (Or.inl rfl)

/-- C3: a rule whose regex fails to compile (and is not already cached)
contributes no violations — `_check_regex_pattern` returns the empty list
with the cache unchanged, and `analyze_string` over a catalog holding that
rule reports no violations — and never raises. -/
theorem C3_invalid_regex_inert (reCompile : String → Option HostRegex)
    (cache : RegexCache) (content : String) (p : Pattern)
    (fp r cat ftype fname : String) (ii : Bool)
    (hreg : p.regex = some r) (hcomp : reCompile r = none)
    (hcache : cacheLookup cache r = none) :
    check_regex_pattern reCompile cache content p fp = ([], cache)
    ∧ (analyze_string reCompile ⟨[(cat, [p])], ii, cache⟩ content ftype
        fname).1.violations = [] := by
  have hcrp : ∀ fpx : String,
      check_regex_pattern reCompile cache content p fpx = ([], cache) := by
    intro fpx
    simp only [check_regex_pattern, hreg, hcache, hcomp]
    split
    · rfl
    · rfl
  refine ⟨hcrp fp, ?_⟩
  unfold analyze_string
  have hall : allRules [(cat, [p])] = [p] := by simp [allRules]
  rw [hall]
  by_cases h1 : (!ii && p.severity == "info") = true
  · simp [analyze_rules, h1]
  · by_cases h2 : truthyStrOpt p.regex = true
    · simp [analyze_rules, h1, h2, hcrp fname]
    · simp [analyze_rules, h1, h2]

/-- C3 witness: a rule with regex `(` under a host compiler that rejects it
yields no violations from either entry point. -/
theorem C3_witness :
    pBadDemo.regex = some "("
    ∧ reCompileNone "(" = none
    ∧ cacheLookup [] "(" = none
    ∧ check_regex_pattern reCompileNone [] "abc" pBadDemo "f" = ([], [])
    ∧ (analyze_string reCompileNone ⟨[("demo", [pBadDemo])], false, []⟩
        "abc" "python" "f").1.violations = [] := by
  refine ⟨rfl, rfl, rfl, ?_⟩
  exact C3_invalid_regex_inert reCompileNone [] "abc" pBadDemo "f" "("
    "demo" "python" "f" false rfl rfl rfl

/-- C4: with `include_info = false`, no violation of severity `info` appears
in the result of `analyze_string`, `analyze_file`, or `analyze_directory`,
for every rule catalog, host regex behaviour and input (stated via
`info_count`, the result view counting `info` violations). -/
theorem C4_info_filter (reCompile : String → Option HostRegex)
    (globMatch : String → String → Bool) (e : PatternEngine)
    (content ftype fname : String) (f : FSFile) (files : List FSFile)
    (excl : List String) (h : e.include_info = false) :
    (analyze_string reCompile e content ftype fname).1.info_count = 0
    ∧ (analyze_file reCompile e f).1.info_count = 0
    ∧ (analyze_directory reCompile globMatch e files excl).1.info_count = 0 := by
  refine ⟨?_, ?_, ?_⟩
  · exact info_count_zero_of_no_info _
      (analyze_string_no_info reCompile e content ftype fname h)
  · exact info_count_zero_of_no_info _
      (analyze_file_no_info reCompile e f h)
  · refine info_count_zero_of_no_info _ ?_
    unfold analyze_directory
    exact analyze_directory_go_no_info reCompile globMatch _ files e _ h
      (by intro v hv; simp at hv)

/-- C4 witness: an engine holding one `info` rule whose regex matches the
input still reports `info_count = 0` from all three entry points when
`include_info` is off. -/
theorem C4_witness :
    engineInfoDemo.include_info = false
    ∧ (analyze_string reCompileDemo engineInfoDemo "x" "python"
        "f").1.info_count = 0
    ∧ (analyze_file reCompileDemo engineInfoDemo c2FileDemo).1.info_count = 0
    ∧ (analyze_directory reCompileDemo globDemo engineInfoDemo [c2FileDemo]
        []).1.info_count = 0 := by
  refine ⟨rfl, ?_⟩
  exact C4_info_filter reCompileDemo globDemo engineInfoDemo "x" "python" "f"
    c2FileDemo [c2FileDemo] [] rfl

/-- C9: in the SARIF construction, every `pattern_id` occurring among the
violations appears exactly once in the emitted rules array, and every
result entry names a rule id from that array. -/
theorem C9_sarif_rule_dedup (r : AnalysisResult) (pid : String)
    (h : pid ∈ r.violations.map (fun v => v.pattern_id)) :
    ((to_sarif_rules r).map (fun sr => sr.id)).count pid = 1
    ∧ ((to_sarif_results r).all (fun sr =>
        ((to_sarif_rules r).map (fun q => q.id)).contains sr.ruleId)) = true := by
  constructor
  · refine List.count_eq_one_of_mem (buildSarifRules_ids_nodup _ _) ?_
    exact (buildSarifRules_ids_mem r.violations [] pid).2 ⟨h, by simp⟩
  · rw [List.all_eq_true]
    intro sr hsr
    have hmem := mem_buildSarifResults r.violations sr hsr
    have hin : sr.ruleId ∈ (to_sarif_rules r).map (fun q => q.id) :=
      (buildSarifRules_ids_mem r.violations [] sr.ruleId).2 ⟨hmem, by simp⟩
    simpa [List.elem_iff] using hin

/-- C9 witness: a result with three violations over two distinct ids emits
each id once and every result entry references an emitted id. -/
theorem C9_witness :
    ("R1" ∈ (AnalysisResult.mk
        [mkViolation pWarnDemo "f" 1 "x", mkViolation pWarnDemo "f" 2 "xx",
         mkViolation pInfoDemo "g" 3 "y"] 1 2).violations.map
        (fun v => v.pattern_id))
    ∧ ((to_sarif_rules (AnalysisResult.mk
        [mkViolation pWarnDemo "f" 1 "x", mkViolation pWarnDemo "f" 2 "xx",
         mkViolation pInfoDemo "g" 3 "y"] 1 2)).map (fun sr => sr.id)).count
        "R1" = 1
    ∧ ((to_sarif_results (AnalysisResult.mk
        [mkViolation pWarnDemo "f" 1 "x", mkViolation pWarnDemo "f" 2 "xx",
         mkViolation pInfoDemo "g" 3 "y"] 1 2)).all (fun sr =>
        ((to_sarif_rules (AnalysisResult.mk
          [mkViolation pWarnDemo "f" 1 "x", mkViolation pWarnDemo "f" 2 "xx",
           mkViolation pInfoDemo "g" 3 "y"] 1 2)).map
          (fun q => q.id)).contains sr.ruleId)) = true := by
  refine ⟨by decide, ?_⟩
  exact C9_sarif_rule_dedup _ "R1" (by decide)

/-- C10: no analysis entry point changes the rule registry or the
`include_info` flag, and the regex cache only grows: an entry stored for a
pattern text keeps its value through `analyze_string`, `analyze_file` and
`analyze_directory`. -/
theorem C10_engine_frame (reCompile : String → Option HostRegex)
    (globMatch : String → String → Bool) (e : PatternEngine)
    (content ftype fname : String) (f : FSFile) (files : List FSFile)
    (excl : List String) (k : String) (v : HostRegex)
    (h : cacheLookup e.compiled_patterns k = some v) :
    ((analyze_string reCompile e content ftype fname).2.patterns = e.patterns
      ∧ (analyze_string reCompile e content ftype fname).2.include_info
          = e.include_info
      ∧ cacheLookup (analyze_string reCompile e content ftype
          fname).2.compiled_patterns k = some v)
    ∧ ((analyze_file reCompile e f).2.patterns = e.patterns
      ∧ (analyze_file reCompile e f).2.include_info = e.include_info
      ∧ cacheLookup (analyze_file reCompile e f).2.compiled_patterns k
          = some v)
    ∧ ((analyze_directory reCompile globMatch e files excl).2.patterns
          = e.patterns
      ∧ (analyze_directory reCompile globMatch e files excl).2.include_info
          = e.include_info
      ∧ cacheLookup (analyze_directory reCompile globMatch e files
          excl).2.compiled_patterns k = some v) := by
  exact ⟨analyze_string_frame reCompile e content ftype fname k v h,
    analyze_file_frame reCompile e f k v h,
    analyze_directory_frame reCompile globMatch e files excl k v h⟩

/-- C10 witness: an engine whose cache holds the compiled entry for `x`
keeps its registry, flag and that cache entry across all three entry
points. -/
theorem C10_witness :
    cacheLookup engineCacheDemo.compiled_patterns "x" = some mxDemo
    ∧ (((analyze_string reCompileDemo engineCacheDemo "x" "python"
          "f").2.patterns = engineCacheDemo.patterns
      ∧ (analyze_string reCompileDemo engineCacheDemo "x" "python"
          "f").2.include_info = engineCacheDemo.include_info
      ∧ cacheLookup (analyze_string reCompileDemo engineCacheDemo "x" "python"
          "f").2.compiled_patterns "x" = some mxDemo)
    ∧ ((analyze_file reCompileDemo engineCacheDemo c2FileDemo).2.patterns
          = engineCacheDemo.patterns
      ∧ (analyze_file reCompileDemo engineCacheDemo
          c2FileDemo).2.include_info = engineCacheDemo.include_info
      ∧ cacheLookup (analyze_file reCompileDemo engineCacheDemo
          c2FileDemo).2.compiled_patterns "x" = some mxDemo)
    ∧ ((analyze_directory reCompileDemo globDemo engineCacheDemo [c2FileDemo]
          []).2.patterns = engineCacheDemo.patterns
      ∧ (analyze_directory reCompileDemo globDemo engineCacheDemo [c2FileDemo]
          []).2.include_info = engineCacheDemo.include_info
      ∧ cacheLookup (analyze_directory reCompileDemo globDemo engineCacheDemo
          [c2FileDemo] []).2.compiled_patterns "x" = some mxDemo)) := by
  refine ⟨rfl, ?_⟩
  exact C10_engine_frame reCompileDemo globDemo engineCacheDemo "x" "python"
    "f" c2FileDemo [c2FileDemo] [] "x" mxDemo rfl


/-- The raw JSON text of the C5 scenario. -/
def c5Raw : String :=
  "\x7b\"servers\": \x7b\"x\": \x7b\"url\": \"https://h/api/2.0/mcp/genie\"\x7d\x7d\x7d"

/-- The parsed tree of the C5 scenario (the unique `json.loads` result). -/
def c5Data : JsonValue :=
  JsonValue.obj [("servers", JsonValue.obj [("x",
    JsonValue.obj [("url", JsonValue.str "https://h/api/2.0/mcp/genie")])])]

/-- Number of error-severity findings of a JSON analysis outcome. -/
def jsonErrorCount : Except PyErr (List Finding) → Nat
  | Except.ok fs => (fs.filter (fun f => f.severity == "error")).length
  | Except.error _ => 0

/-- C5 counterexample: the scenario content does not produce two error
findings. -/
theorem C5_counterexample :
    jsonErrorCount (analyzeStructure c5Data c5Raw "") ≠ 2 := by
  intro h
  rw [show analyzeStructure c5Data c5Raw ""
      = Except.ok
          [{ rule_id := "MCP004",
             message := "Use \x27mcpServers\x27 instead of \x27servers\x27",
             line := 1, column := 0, severity := "error",
             suggestion := some "Rename key to \"mcpServers\"" }] from rfl]
    at h
  simp [jsonErrorCount] at h

/-- C5 (amended): the scenario content produces exactly one error finding —
the wrong-top-level-key error (`MCP004`); no genie-URL finding is produced
because the URL-shape checks read server entries only from the canonical
`mcpServers` key, which is absent here. -/
theorem C5_single_error_finding :
    analyzeStructure c5Data c5Raw ""
      = Except.ok
          [{ rule_id := "MCP004",
             message := "Use \x27mcpServers\x27 instead of \x27servers\x27",
             line := 1, column := 0, severity := "error",
             suggestion := some "Rename key to \"mcpServers\"" }] := by
  rfl

/-- The credential-shaped demonstration token: `dapi` + 32 alphanumerics. -/
def tok32 : String := "dapiabcdefghijklmnopqrstuvwxyz012345"

def c6ArrData : JsonValue :=
  JsonValue.obj [("a", JsonValue.arr [JsonValue.str tok32])]

def c6ArrRaw : String :=
  "\x7b\"a\": [\"dapiabcdefghijklmnopqrstuvwxyz012345\"]\x7d"

/-- C6 counterexample: a credential-shaped string inside a sequence value is
not flagged — the walk only descends into mapping values. -/
theorem C6_counterexample :
    dapiShape tok32 = true
    ∧ analyzeStructure c6ArrData c6ArrRaw "" = Except.ok [] := by
  exact ⟨by decide, rfl⟩

/-- C6 (amended): for every parsed tree, every credential-shaped string
value that is a direct value of a mapping reachable from the root through
mapping values only — identified by its key sequence `ks` — yields its own
error-severity `AUTH003` finding, whose message names the dotted key path
of that occurrence and whose line is the first raw-text line containing the
value, provided the analysis completes without raising; strings inside
sequences (or a non-mapping root) are not inspected. -/
theorem C6_token_findings (d : JsonValue) (ks : List String)
    (s raw path : String) (fs : List Finding) (hd : DictTokenPath d ks s)
    (h : analyzeStructure d raw path = Except.ok fs) :
    ({ rule_id := "AUTH003",
       message := "Hardcoded token at " ++ pathOf path ks,
       line := findLineNumber raw s, column := 0, severity := "error",
       suggestion := some "Use environment variable reference" } :
      Finding) ∈ fs :=
  analyzeStructure_token_mem d ks s hd raw path fs h

/-- A second credential-shaped token, distinct from `tok32`. -/
def tok32b : String := "dapiZYXWVUTSRQPONMLKJIHGFEDCBA987654"

/-- A tree with two tokens: one at the root mapping, one nested. -/
def c6TwoData : JsonValue :=
  JsonValue.obj [("t1", JsonValue.str tok32),
    ("nested", JsonValue.obj [("t2", JsonValue.str tok32b)])]

/-- Raw text holding `tok32` on line 1 and `tok32b` on line 2. -/
def c6TwoRaw : String :=
  "\x7b\"t1\": \"dapiabcdefghijklmnopqrstuvwxyz012345\",\n\"nested\": \x7b\"t2\": \"dapiZYXWVUTSRQPONMLKJIHGFEDCBA987654\"\x7d\x7d"

def c6Finding1 : Finding :=
  { rule_id := "AUTH003", message := "Hardcoded token at t1",
    line := 1, column := 0, severity := "error",
    suggestion := some "Use environment variable reference" }

def c6Finding2 : Finding :=
  { rule_id := "AUTH003", message := "Hardcoded token at nested.t2",
    line := 2, column := 0, severity := "error",
    suggestion := some "Use environment variable reference" }

/-- C6 witness: each of the two tokens in the tree gets its own finding,
tied to its dotted path and line. -/
theorem C6_witness :
    analyzeStructure c6TwoData c6TwoRaw "" = Except.ok [c6Finding1, c6Finding2]
    ∧ c6Finding1 ∈ [c6Finding1, c6Finding2]
    ∧ c6Finding2 ∈ [c6Finding1, c6Finding2] := by
  refine ⟨rfl, ?_, ?_⟩
  · exact C6_token_findings c6TwoData ["t1"] tok32 c6TwoRaw ""
      [c6Finding1, c6Finding2]
      (DictTokenPath.here _ "t1" tok32 (by simp) (by decide)) rfl
  · exact C6_token_findings c6TwoData ["nested", "t2"] tok32b c6TwoRaw ""
      [c6Finding1, c6Finding2]
      (DictTokenPath.nest _ "nested" [("t2", JsonValue.str tok32b)] ["t2"]
        tok32b (by simp)
        (DictTokenPath.here [("t2", JsonValue.str tok32b)] "t2" tok32b
          (by simp) (by decide))) rfl

def c7Raw : String := "\x7b\"mcpServers\": []\x7d"

/-- The host `json.loads` observed on the C7 inputs. -/
def c7Loads : String → Option JsonValue := fun s =>
  if s == c7Raw then some (JsonValue.obj [("mcpServers", JsonValue.arr [])])
  else none

/-- C7: the structured-data analyzer is not exception-free: on the valid
JSON `\x7b"mcpServers": []\x7d` the registry check calls `.items()` on a
list and an `AttributeError` escapes `analyze` (only `JSONDecodeError` is
caught); unparsable content does yield the empty sequence. -/
theorem C7_json_analyzer_raises :
    jsonAnalyze c7Loads c7Raw = Except.error PyErr.attributeError
    ∧ jsonAnalyze c7Loads "not json" = Except.ok [] := by
  exact ⟨rfl, rfl⟩

/-- The `SQL006` finding of the query-language analyzer. -/
def missingLimitFinding (line_num : Nat) : Finding :=
  { rule_id := "SQL006", message := "Query without LIMIT clause",
    line := line_num, column := 0, severity := "info",
    suggestion := some "Add LIMIT for large tables" }

/-- C8 counterexample: `SELECT 1` holds exactly one (word-bounded) SELECT
and no LIMIT, yet `_check_line` emits no finding at all — the code also
requires a FROM after the SELECT. -/
theorem C8_counterexample :
    searchBounded "SELECT".toList none "SELECT 1".toList = true
    ∧ countSub "SELECT".toList "SELECT 1".toList = 1
    ∧ searchBounded "LIMIT".toList none "SELECT 1".toList = false
    ∧ sqlCheckLine "SELECT 1" 1 = [] := by
  exact ⟨by decide, by decide, by decide, by decide⟩

/-- C8 (amended): `_check_line` emits the missing-LIMIT info finding exactly
for lines matching the word-bounded SELECT-then-FROM pattern that contain no
`LIMIT` keyword and contain the substring `SELECT` exactly once (so the
suppression for multiple SELECTs holds as claimed). -/
theorem C8_missing_limit_iff (line : String) (n : Nat) :
    missingLimitFinding n ∈ sqlCheckLine line n
      ↔ (searchSelectFrom none line.toList = true
         ∧ searchBounded "LIMIT".toList none line.toList = false
         ∧ countSub "SELECT".toList line.toList = 1) := by
  unfold sqlCheckLine
  simp only [List.mem_append]
  constructor
  · rintro ((h | h) | h)
    · exfalso
      revert h
      split
      · intro h
        simp only [List.mem_singleton] at h
        have := congrArg Finding.rule_id h
        simp [missingLimitFinding] at this
      · intro h; cases h
    · revert h
      split
      · rename_i hcond
        intro _
        simp only [Bool.and_eq_true, Bool.not_eq_true', beq_iff_eq] at hcond
        exact ⟨hcond.1.1, hcond.1.2, hcond.2⟩
      · intro h; cases h
    · exfalso
      have := mem_uc001_rule line n _ h
      simp [missingLimitFinding] at this
  · rintro ⟨h1, h2, h3⟩
    refine Or.inl (Or.inr ?_)
    have hc : (searchSelectFrom none line.toList
        && !searchBounded "LIMIT".toList none line.toList
        && (countSub "SELECT".toList line.toList == 1)) = true := by
      rw [h1, h2, h3]; rfl
    rw [if_pos hc]
    simp [missingLimitFinding]

/-- C8 witness: the amended condition at `SELECT A FROM T`. -/
theorem C8_witness :
    missingLimitFinding 1 ∈ sqlCheckLine "SELECT A FROM T" 1 := by
  exact (C8_missing_limit_iff "SELECT A FROM T" 1).mpr
    ⟨by decide, by decide, by decide⟩
